import Mathlib

/-!
Shallow embedding of `src/contract_event_recorders.py` from the
POA-Delta/backend-replacement repository: the event-to-state reconciliation
core of a decentralized-exchange backend.  The SQL statements
(`INSERT_TRADE_STMT`, `INSERT_TRANSFER_STMT`, `UPDATE_ORDER_FILL_STMT`,
`UPSERT_CANCELED_ORDER_STMT`, `FETCH_AFFECTED_ORDERS_STMT`) are embedded as
pure functions over list-based tables, and the async handler functions
(`process_trade`, `record_trade`, `record_transfer`, `update_order_fills`,
`record_cancel`) as state-passing functions.  Addresses, hashes and
signatures are modelled directly by their canonical byte strings, so the
`Web3.toBytes(hexstr=...)` / `Web3.toHex(...)` round-trip encodings are the
identity and are elided; the one encoding whose failure behaviour matters,
`Web3.toBytes(text=...)` applied to a possibly absent field, is modelled
explicitly.  Blockchain amounts (uint256) are modelled as `Nat`.
-/

namespace ContractEventRecorders

/-- Order lifecycle states.  The `order_enums.OrderState` values used by the
SQL statements and by `record_cancel`: `OPEN`, `FILLED`, `CANCELED`. -/
inductive OrderState where
  | OPEN
  | FILLED
  | CANCELED
deriving DecidableEq

/-- Order provenance, `order_enums.OrderSource`.  The source spells the
on-chain member `ONCHANIN` (sic), and we keep that spelling. -/
inductive OrderSource where
  | OFFCHAIN
  | ONCHANIN
deriving DecidableEq

/-- One row of the `orders` table, with the columns named in
`UPSERT_CANCELED_ORDER_STMT` (section 6 of the spec gives the same logical
schema): `signature` is the primary key (`index_orders_on_signature`). -/
structure OrderRow where
  source : OrderSource
  signature : String
  token_give : String
  amount_give : Nat
  token_get : String
  amount_get : Nat
  expires : Nat
  nonce : Nat
  user : String
  state : OrderState
  v : Int
  r : String
  s : String
  date : Nat
  amount_fill : Nat
  updated : Nat
deriving DecidableEq

/-- One row of the `trades` table (columns of `INSERT_TRADE_STMT`); unique on
`(transaction_hash, log_index)` via `index_trades_on_event_identifier`. -/
structure TradeRow where
  block_number : Nat
  transaction_hash : String
  log_index : Nat
  token_give : String
  amount_give : Nat
  token_get : String
  amount_get : Nat
  addr_give : String
  addr_get : String
  date : Nat
deriving DecidableEq

/-- One row of the `transfers` table (columns of `INSERT_TRANSFER_STMT`);
unique on `(transaction_hash, log_index)` via
`index_transfers_on_event_identifier`. -/
structure TransferRow where
  block_number : Nat
  transaction_hash : String
  log_index : Nat
  direction : String
  token : String
  user : String
  amount : Nat
  balance_after : Nat
  date : Nat
deriving DecidableEq

/-- A Trade event as consumed by `process_trade` / `record_trade`:
`blockNumber`, `transactionHash`, `logIndex` plus the `args` payload.  The
maker side of the order is recorded in `get` (comment at line 27 of the
source). -/
structure TradeEvent where
  blockNumber : Nat
  transactionHash : String
  logIndex : Nat
  tokenGive : String
  amountGive : Nat
  tokenGet : String
  amountGet : Nat
  give : String
  get : String
deriving DecidableEq

/-- A Deposit/Withdraw event as consumed by `record_transfer`. -/
structure TransferEvent where
  blockNumber : Nat
  transactionHash : String
  logIndex : Nat
  token : String
  user : String
  amount : Nat
  balance : Nat
deriving DecidableEq

/-- A Cancel event's `args` payload together with the event's block number,
as consumed by `record_cancel`.  The signature components `v`, `r`, `s` may
be absent or `None` in the Python dict; both cases are modelled as `none`. -/
structure CancelEvent where
  blockNumber : Nat
  tokenGet : String
  amountGet : Nat
  tokenGive : String
  amountGive : Nat
  expires : Nat
  nonce : Nat
  user : String
  v : Option Int
  r : Option String
  s : Option String
deriving DecidableEq

/-- The external collaborators of the reconciliation core (section 6 of the
spec): block-timestamp lookup by block number, block-timestamp of the
symbolic "latest" block, and the contract's per-order cumulative-fill
accessor `contract.call().orderFills` keyed by (maker, signature).  A `none`
from `orderFills` models a failing lookup call (the Python call raising). -/
structure ChainEnv where
  blockTs : Nat → Nat
  latestTs : Nat
  orderFills : String → String → Option Nat

/-- The persistent store: the three tables the statements touch. -/
structure DB where
  trades : List TradeRow
  transfers : List TransferRow
  orders : List OrderRow

/-- `ZERO_ADDR` from line 11 of the source. -/
def ZERO_ADDR : String := "0x0000000000000000000000000000000000000000"

/-- `Web3.toBytes(text=x)` applied to an optional field: returns the bytes of
the string when present, raises `TypeError` when the value is absent/None
(in Python, `Web3.toBytes(text=None)` raises because no convertible primitive
is supplied). -/
def toBytes_text : Option String → Except String String
  | some t => Except.ok t
  | none => Except.error "TypeError"

/-- Python `int(x)` applied to an optional field: raises `TypeError` when the
value is absent/None. -/
def int_of : Option Int → Except String Int
  | some n => Except.ok n
  | none => Except.error "TypeError"

/-- Modelled from the spec: `parse_insert_status` lives in the repository's
`utils` module, which is not under src.  Per section 6 of the spec the store
reports insert-vs-conflict / rows-affected for guarded inserts and
conditional updates; `parse_insert_status` exposes the rows-affected count of
the command status as the `did_insert` boolean (true iff a row was written). -/
def parse_insert_status (rowsAffected : Nat) : Bool :=
  decide (0 < rowsAffected)

/-- Modelled from the spec: `make_order_hash` lives in the repository's
`order_hash` module, which is not under src.  Per section 3 of the spec it is
a deterministic signature hash computed from the order's terms (tokens,
amounts, expiry, nonce, maker); modelled as an injective serialization of
those terms. -/
def make_order_hash (o : CancelEvent) : String :=
  o.tokenGet ++ "|" ++ toString o.amountGet ++ "|" ++
  o.tokenGive ++ "|" ++ toString o.amountGive ++ "|" ++
  toString o.expires ++ "|" ++ toString o.nonce ++ "|" ++ o.user

/-- `INSERT_TRADE_STMT`: insert guarded by the unique constraint on
`(transaction_hash, log_index)`, `ON CONFLICT ... DO NOTHING`.  Returns the
new table and the number of rows affected (0 on conflict, 1 on insert). -/
def insert_trade_stmt (row : TradeRow) (tbl : List TradeRow) :
    List TradeRow × Nat :=
  if tbl.any (fun t => t.transaction_hash == row.transaction_hash &&
      t.log_index == row.log_index) then
    (tbl, 0)
  else
    (tbl ++ [row], 1)

/-- `INSERT_TRANSFER_STMT`: insert guarded by the unique constraint on
`(transaction_hash, log_index)`, `ON CONFLICT ... DO NOTHING`. -/
def insert_transfer_stmt (row : TransferRow) (tbl : List TransferRow) :
    List TransferRow × Nat :=
  if tbl.any (fun t => t.transaction_hash == row.transaction_hash &&
      t.log_index == row.log_index) then
    (tbl, 0)
  else
    (tbl ++ [row], 1)

/-- The trade row `record_trade` builds from a Trade event (its
`insert_args` tuple, lines 98-109 of the source). -/
def tradeRowOfEvent (env : ChainEnv) (e : TradeEvent) : TradeRow :=
  { block_number := e.blockNumber
    transaction_hash := e.transactionHash
    log_index := e.logIndex
    token_give := e.tokenGive
    amount_give := e.amountGive
    token_get := e.tokenGet
    amount_get := e.amountGet
    addr_give := e.give
    addr_get := e.get
    date := env.blockTs e.blockNumber }

/-- `record_trade`: builds the insert arguments from the event and executes
`INSERT_TRADE_STMT`; returns the new trades table and `bool(did_insert)`
obtained through `parse_insert_status`. -/
def record_trade (env : ChainEnv) (e : TradeEvent) (tbl : List TradeRow) :
    List TradeRow × Bool :=
  let res := insert_trade_stmt (tradeRowOfEvent env e) tbl
  (res.1, parse_insert_status res.2)

/-- The transfer row `record_transfer` builds from a Deposit/Withdraw event
(its `insert_args` tuple, lines 146-156 of the source). -/
def transferRowOfEvent (env : ChainEnv) (direction : String)
    (e : TransferEvent) : TransferRow :=
  { block_number := e.blockNumber
    transaction_hash := e.transactionHash
    log_index := e.logIndex
    direction := direction
    token := e.token
    user := e.user
    amount := e.amount
    balance_after := e.balance
    date := env.blockTs e.blockNumber }

/-- `record_transfer`: builds the insert arguments and executes
`INSERT_TRANSFER_STMT`; returns the new transfers table and
`bool(did_insert)`. -/
def record_transfer (env : ChainEnv) (direction : String) (e : TransferEvent)
    (tbl : List TransferRow) : List TransferRow × Bool :=
  let res := insert_transfer_stmt (transferRowOfEvent env direction e) tbl
  (res.1, parse_insert_status res.2)

/-- The row-level effect of `UPDATE_ORDER_FILL_STMT` on a matched row:
`amount_fill = GREATEST(amount_fill, $1)` (SQL `SET` expressions read the old
row, so `GREATEST` compares the stored value with the parameter), `state`
follows the `CASE`: terminal states are kept, otherwise `FILLED` when
`amount_get <= GREATEST(amount_fill, $1)`, else `OPEN`; `updated = $2`. -/
def applyFillRow (amountFill updatedAt : Nat) (o : OrderRow) : OrderRow :=
  { o with
    amount_fill := max o.amount_fill amountFill
    state :=
      if o.state = OrderState.FILLED ∨ o.state = OrderState.CANCELED then
        o.state
      else if o.amount_get ≤ max o.amount_fill amountFill then
        OrderState.FILLED
      else
        OrderState.OPEN
    updated := updatedAt }

/-- `UPDATE_ORDER_FILL_STMT` at table level: updates every row whose
`signature` equals `$3` (the primary key, so at most one in a well-formed
table) with `applyFillRow`; other rows are untouched. -/
def update_order_fill_stmt (amountFill updatedAt : Nat) (sig : String)
    (tbl : List OrderRow) : List OrderRow :=
  tbl.map (fun o => if o.signature = sig then applyFillRow amountFill updatedAt o else o)

/-- `update_order_fills`: for each affected order, one external
`orderFills(maker, signature)` lookup followed by one execution of
`UPDATE_ORDER_FILL_STMT` with the looked-up amount and the latest block
timestamp.  A failing lookup raises in Python and aborts the loop, so the
remaining orders (the failing one included) are not written.  Returns the
orders table, the trace of lookup keys actually performed, and whether the
loop completed without a lookup failure. -/
def update_order_fills (env : ChainEnv) :
    List OrderRow → List OrderRow → List OrderRow × List (String × String) × Bool
  | [], tbl => (tbl, [], true)
  | o :: rest, tbl =>
    match env.orderFills o.user o.signature with
    | none => (tbl, [(o.user, o.signature)], false)
    | some a =>
      let res := update_order_fills env rest
        (update_order_fill_stmt a env.latestTs o.signature tbl)
      (res.1, (o.user, o.signature) :: res.2.1, res.2.2)

/-- `FETCH_AFFECTED_ORDERS_STMT` via `fetch_affected_orders`: every order of
`order_maker` whose give-token or get-token equals `coin_addr` and whose
`expires` is at least `expiring_at`. -/
def fetch_affected_orders (order_maker coin_addr : String) (expiring_at : Nat)
    (tbl : List OrderRow) : List OrderRow :=
  tbl.filter (fun o => o.user == order_maker &&
    (o.token_give == coin_addr || o.token_get == coin_addr) &&
    decide (expiring_at ≤ o.expires))

/-- The token-selection rule of `process_trade` (lines 29-32 of the source):
the trade's give-token unless it is `ZERO_ADDR`, in which case the
get-token. -/
def select_coin_addr (e : TradeEvent) : String :=
  if e.tokenGive ≠ ZERO_ADDR then e.tokenGive else e.tokenGet

/-- `process_trade`: records the trade fact, and only when the insert
reported true performs the affected-order lookup (maker = `args.get`, token
by `select_coin_addr`, expiry bound = the trade's block number) and, when the
affected set is non-empty, the fill refresh.  Returns the store, the
`did_insert` flag, and the trace of external fill lookups performed. -/
def process_trade (env : ChainEnv) (e : TradeEvent) (db : DB) :
    DB × Bool × List (String × String) :=
  let recres := record_trade env e db.trades
  let db1 : DB := { db with trades := recres.1 }
  if recres.2 then
    let order_maker := e.get
    let coin_addr := select_coin_addr e
    let affected :=
      fetch_affected_orders order_maker coin_addr e.blockNumber db1.orders
    if 0 < affected.length then
      let upd := update_order_fills env affected db1.orders
      ({ db1 with orders := upd.1 }, true, upd.2.1)
    else
      (db1, true, [])
  else
    (db1, false, [])

/-- The source-classification rule of `record_cancel` (lines 184-187):
`OFFCHAIN` iff the args contain an `r` key with a non-None value, the
(typo'd) `ONCHANIN` member otherwise. -/
def cancel_source (e : CancelEvent) : OrderSource :=
  match e.r with
  | some _ => OrderSource.OFFCHAIN
  | none => OrderSource.ONCHANIN

/-- The order row `record_cancel` synthesizes from a Cancel event (its
`upsert_args` tuple, lines 189-206): state `CANCELED`, `amount_fill` set to
`amountGet` (the contract updates `orderFills` to `amountGet` on cancel),
`date` and `updated` both the cancel block's timestamp. -/
def canceledOrderRow (e : CancelEvent) (sig : String) (v0 : Int)
    (r0 s0 : String) (ts : Nat) : OrderRow :=
  { source := cancel_source e
    signature := sig
    token_give := e.tokenGive
    amount_give := e.amountGive
    token_get := e.tokenGet
    amount_get := e.amountGet
    expires := e.expires
    nonce := e.nonce
    user := e.user
    state := OrderState.CANCELED
    v := v0
    r := r0
    s := s0
    date := ts
    amount_fill := e.amountGet
    updated := ts }

/-- The conflict-branch row update of `UPSERT_CANCELED_ORDER_STMT`:
`DO UPDATE SET state = $10, amount_fill = $15, updated = $16` guarded by
`WHERE orders.signature = $2 AND orders.state = 'OPEN'`. -/
def cancelUpdateRow (newRow o : OrderRow) : OrderRow :=
  if o.signature == newRow.signature && o.state == OrderState.OPEN then
    { o with state := newRow.state
             amount_fill := newRow.amount_fill
             updated := newRow.updated }
  else
    o

/-- `UPSERT_CANCELED_ORDER_STMT` at table level: plain insert when no row
conflicts on `signature`; on conflict, the guarded update `cancelUpdateRow`
on the table, affecting exactly the rows that match the signature and are
currently `OPEN`.  Returns the table and the rows-affected count. -/
def upsert_canceled_order_stmt (newRow : OrderRow) (tbl : List OrderRow) :
    List OrderRow × Nat :=
  if tbl.any (fun o => o.signature == newRow.signature) then
    (tbl.map (cancelUpdateRow newRow),
     tbl.countP (fun o => o.signature == newRow.signature &&
       o.state == OrderState.OPEN))
  else
    (tbl ++ [newRow], 1)

/-- `record_cancel`: classifies the source, computes the order hash and the
block timestamp, then builds `upsert_args` — in Python's evaluation order
`int(order["v"])` comes before `Web3.toBytes(text=order["r"])` and
`Web3.toBytes(text=order["s"])`, and any of them raises on an absent/None
field, before the store is touched.  On success executes
`UPSERT_CANCELED_ORDER_STMT` and returns `bool(did_upsert)`. -/
def record_cancel (env : ChainEnv) (e : CancelEvent) (tbl : List OrderRow) :
    Except String (List OrderRow × Bool) :=
  match int_of e.v with
  | Except.error msg => Except.error msg
  | Except.ok v0 =>
    match toBytes_text e.r with
    | Except.error msg => Except.error msg
    | Except.ok r0 =>
      match toBytes_text e.s with
      | Except.error msg => Except.error msg
      | Except.ok s0 =>
        let row := canceledOrderRow e (make_order_hash e) v0 r0 s0
          (env.blockTs e.blockNumber)
        let res := upsert_canceled_order_stmt row tbl
        Except.ok (res.1, parse_insert_status res.2)

/-- A sequence of `applyFill` row updates, each with its own amount and
timestamp, applied in order. -/
def applyFillSeq (calls : List (Nat × Nat)) (o : OrderRow) : OrderRow :=
  calls.foldl (fun row c => applyFillRow c.1 c.2 row) o

end ContractEventRecorders

namespace ContractEventRecorders

/-!
Concrete fixtures used by witnesses and counterexamples.
-/

/-- An OPEN order with get-amount 100 and nothing filled yet. -/
def openRow : OrderRow :=
  { source := OrderSource.OFFCHAIN
    signature := "sigA"
    token_give := "0xA"
    amount_give := 50
    token_get := "0xB"
    amount_get := 100
    expires := 1000
    nonce := 1
    user := "0xM"
    state := OrderState.OPEN
    v := 27
    r := "r0"
    s := "s0"
    date := 5
    amount_fill := 0
    updated := 5 }

/-- A FILLED order: same terms as `openRow`, fill amount at the get-amount. -/
def filledRow : OrderRow :=
  { openRow with signature := "sigF", state := OrderState.FILLED, amount_fill := 100 }

/-- A Cancel event carrying no `r` signature component (an on-chain cancel). -/
def e2 : CancelEvent :=
  { blockNumber := 9
    tokenGet := "0xB"
    amountGet := 100
    tokenGive := "0xA"
    amountGive := 50
    expires := 1000
    nonce := 1
    user := "0xM"
    v := some 27
    r := none
    s := some "s1" }

/-- A Cancel event carrying the full `v`, `r`, `s` signature (off-chain). -/
def e1 : CancelEvent := { e2 with r := some "r1" }

/-- A concrete external environment. -/
def env0 : ChainEnv :=
  { blockTs := fun _ => 3, latestTs := 4, orderFills := fun _ _ => some 0 }

/-- An environment whose fill accessor knows only the signature `sigA`
(every other lookup fails). -/
def env1 : ChainEnv :=
  { blockTs := fun _ => 3
    latestTs := 9
    orderFills := fun _ sig => if sig == "sigA" then some 42 else none }

/-- A Trade event whose give-token is an ERC20 token (not the zero
address). -/
def eT : TradeEvent :=
  { blockNumber := 12
    transactionHash := "0xabc"
    logIndex := 3
    tokenGive := "0xA"
    amountGive := 5
    tokenGet := "0xB"
    amountGet := 7
    give := "0xT"
    get := "0xM" }

/-- The same trade with the zero address on the give side. -/
def eZ : TradeEvent := { eT with tokenGive := ZERO_ADDR }

/-- A Deposit/Withdraw event. -/
def te0 : TransferEvent :=
  { blockNumber := 12
    transactionHash := "0xdef"
    logIndex := 1
    token := "0xA"
    user := "0xM"
    amount := 9
    balance := 20 }

/-- An empty store. -/
def db0 : DB := { trades := [], transfers := [], orders := [] }

/-- The `openRow` order rekeyed to the signature of cancel event `e1`. -/
def openRowE1 : OrderRow := { openRow with signature := make_order_hash e1 }

/-- The `openRowE1` order already FILLED. -/
def filledRowE1 : OrderRow :=
  { openRowE1 with state := OrderState.FILLED, amount_fill := 100 }

/-!
Helper lemmas shared between the claims.
-/

/-- Mapping a function that fixes every element of a list is the identity. -/
theorem map_eq_self_of_mem {α : Type} (f : α → α) (l : List α)
    (h : ∀ x ∈ l, f x = x) : l.map f = l := by
  induction l with
  | nil => rfl
  | cons a t ih =>
    simp only [List.map_cons, List.cons.injEq]
    exact ⟨h a (List.mem_cons_self a t),
      ih fun x hx => h x (List.mem_cons_of_mem a hx)⟩

/-- In a table whose signatures are pairwise distinct (the primary-key
well-formedness of `orders`), two rows with the same signature are the same
row. -/
theorem sig_unique_eq (tbl : List OrderRow)
    (h : tbl.Pairwise (fun a b => a.signature ≠ b.signature)) :
    ∀ p ∈ tbl, ∀ q ∈ tbl, p.signature = q.signature → p = q := by
  induction tbl with
  | nil => intro p hp; simp at hp
  | cons a t ih =>
    rcases List.pairwise_cons.mp h with ⟨ha, ht⟩
    intro p hp q hq hpq
    rcases List.mem_cons.mp hp with hp1 | hp2
    · rcases List.mem_cons.mp hq with hq1 | hq2
      · rw [hp1, hq1]
      · exact absurd (hp1 ▸ hpq) (ha q hq2)
    · rcases List.mem_cons.mp hq with hq1 | hq2
      · exact absurd (hq1 ▸ hpq.symm) (ha p hp2)
      · exact ih ht p hp2 q hq2 hpq

/-- `INSERT_TRADE_STMT` on a table without the event identifier appends the
row and reports one row affected. -/
theorem insert_trade_not_present (row : TradeRow) (tbl : List TradeRow)
    (h : ∀ t ∈ tbl, ¬(t.transaction_hash = row.transaction_hash ∧
      t.log_index = row.log_index)) :
    insert_trade_stmt row tbl = (tbl ++ [row], 1) := by
  have hany : tbl.any (fun t => t.transaction_hash == row.transaction_hash &&
      t.log_index == row.log_index) = false := by
    rw [List.any_eq_false]
    intro t ht
    simp only [Bool.and_eq_true, beq_iff_eq]
    exact h t ht
  simp [insert_trade_stmt, hany]

/-- `INSERT_TRADE_STMT` on a table already holding the event identifier
writes nothing and reports zero rows affected. -/
theorem insert_trade_present (row : TradeRow) (tbl : List TradeRow)
    (t0 : TradeRow) (ht0 : t0 ∈ tbl)
    (hm : t0.transaction_hash = row.transaction_hash ∧
      t0.log_index = row.log_index) :
    insert_trade_stmt row tbl = (tbl, 0) := by
  have hany : tbl.any (fun t => t.transaction_hash == row.transaction_hash &&
      t.log_index == row.log_index) = true :=
    List.any_eq_true.mpr ⟨t0, ht0, by simp [hm.1, hm.2]⟩
  simp [insert_trade_stmt, hany]

/-- `INSERT_TRANSFER_STMT` on a table without the event identifier appends
the row and reports one row affected. -/
theorem insert_transfer_not_present (row : TransferRow) (tbl : List TransferRow)
    (h : ∀ t ∈ tbl, ¬(t.transaction_hash = row.transaction_hash ∧
      t.log_index = row.log_index)) :
    insert_transfer_stmt row tbl = (tbl ++ [row], 1) := by
  have hany : tbl.any (fun t => t.transaction_hash == row.transaction_hash &&
      t.log_index == row.log_index) = false := by
    rw [List.any_eq_false]
    intro t ht
    simp only [Bool.and_eq_true, beq_iff_eq]
    exact h t ht
  simp [insert_transfer_stmt, hany]

/-- `INSERT_TRANSFER_STMT` on a table already holding the event identifier
writes nothing and reports zero rows affected. -/
theorem insert_transfer_present (row : TransferRow) (tbl : List TransferRow)
    (t0 : TransferRow) (ht0 : t0 ∈ tbl)
    (hm : t0.transaction_hash = row.transaction_hash ∧
      t0.log_index = row.log_index) :
    insert_transfer_stmt row tbl = (tbl, 0) := by
  have hany : tbl.any (fun t => t.transaction_hash == row.transaction_hash &&
      t.log_index == row.log_index) = true :=
    List.any_eq_true.mpr ⟨t0, ht0, by simp [hm.1, hm.2]⟩
  simp [insert_transfer_stmt, hany]

/-- `process_trade` changes the trades table exactly as `record_trade`
does, in every branch. -/
theorem process_trade_trades (env : ChainEnv) (e : TradeEvent) (db : DB) :
    (process_trade env e db).1.trades = (record_trade env e db.trades).1 := by
  simp only [process_trade]
  split
  · split <;> rfl
  · rfl

/-- `process_trade` reports exactly the `did_insert` flag of
`record_trade`. -/
theorem process_trade_flag (env : ChainEnv) (e : TradeEvent) (db : DB) :
    (process_trade env e db).2.1 = (record_trade env e db.trades).2 := by
  simp only [process_trade]
  split
  · next h => split <;> simp [h]
  · next h => simp [eq_comm, h]

/-- When the fact insert reports a duplicate, `process_trade` performs no
affected-order lookup, no fill lookup and no order write. -/
theorem process_trade_duplicate (env : ChainEnv) (e : TradeEvent) (db : DB)
    (h : (record_trade env e db.trades).2 = false) :
    process_trade env e db =
      ({ db with trades := (record_trade env e db.trades).1 }, false, []) := by
  simp [process_trade, h]

/-- `applyFillRow` never changes the row's signature. -/
theorem applyFillRow_signature (a t : Nat) (o : OrderRow) :
    (applyFillRow a t o).signature = o.signature := rfl

/-- `UPDATE_ORDER_FILL_STMT` keyed on one signature leaves the rows of every
other signature untouched. -/
theorem filter_update_of_ne (a t : Nat) (sig q : String) (tbl : List OrderRow)
    (h : sig ≠ q) :
    (update_order_fill_stmt a t sig tbl).filter (fun p => p.signature == q)
      = tbl.filter (fun p => p.signature == q) := by
  induction tbl with
  | nil => rfl
  | cons o rest ih =>
    simp only [update_order_fill_stmt, List.map_cons, List.filter_cons] at *
    by_cases ho : o.signature = sig
    · rw [if_pos ho]
      have h1 : ((applyFillRow a t o).signature == q) = false := by
        rw [applyFillRow_signature]
        simp [ho, h]
      have h2 : (o.signature == q) = false := by simp [ho, h]
      simp [h1, h2, ih]
    · rw [if_neg ho, ih]

/-!
The claims.
-/

/-- Claim C1 is false as stated: `UPDATE_ORDER_FILL_STMT` guards only the
`state` column with the terminal-state check, while
`amount_fill = GREATEST(amount_fill, $1)` is unconditional.  Concretely, an
order that is already FILLED with stored filled amount 100 has its stored
filled amount changed to 150 by an `applyFill` with amount 150. -/
theorem claim1_counterexample :
    filledRow.state = OrderState.FILLED ∧
    filledRow.amount_fill = 100 ∧
    (applyFillRow 150 7 filledRow).amount_fill = 150 ∧
    (applyFillRow 150 7 filledRow).amount_fill ≠ filledRow.amount_fill := by
  refine ⟨rfl, rfl, rfl, ?_⟩
  decide

/-- Claim C1 (amended): once an order's status is FILLED or CANCELED, no
subsequent `applyFill` or `applyCancel` changes its status, and `applyCancel`
(the conflict update of `UPSERT_CANCELED_ORDER_STMT`) leaves the row entirely
unchanged; `applyFill`, however, still sets the stored filled amount to
`max(currentFilled, newFillAmount)`, so it can increase — though never
decrease — the stored filled amount of a terminal order. -/
theorem claim1_terminal_state (a t : Nat) (o newRow : OrderRow)
    (hterm : o.state = OrderState.FILLED ∨ o.state = OrderState.CANCELED) :
    (applyFillRow a t o).state = o.state
    ∧ o.amount_fill ≤ (applyFillRow a t o).amount_fill
    ∧ (applyFillRow a t o).amount_fill = max o.amount_fill a
    ∧ cancelUpdateRow newRow o = o := by
  refine ⟨?_, ?_, rfl, ?_⟩
  · simp [applyFillRow, hterm]
  · exact le_max_left _ _
  · have hst : (o.state == OrderState.OPEN) = false := by
      rcases hterm with h | h <;> simp [h]
    simp [cancelUpdateRow, hst]

/-- Witness for `claim1_terminal_state` at the concrete FILLED order
`filledRow`. -/
theorem claim1_witness :
    (filledRow.state = OrderState.FILLED ∨ filledRow.state = OrderState.CANCELED)
    ∧ (applyFillRow 150 7 filledRow).state = filledRow.state
    ∧ cancelUpdateRow openRow filledRow = filledRow :=
  ⟨Or.inl rfl,
   (claim1_terminal_state 150 7 filledRow openRow (Or.inl rfl)).1,
   (claim1_terminal_state 150 7 filledRow openRow (Or.inl rfl)).2.2.2⟩

/-- Claim C4: for a matched row, `UPDATE_ORDER_FILL_STMT` keeps a FILLED or
CANCELED status unchanged; otherwise it sets the status by comparing the
resulting filled amount `max(currentFilled, newFillAmount)` against the
order's get-amount — FILLED when the resulting amount reaches it, OPEN when
not.  When no row carries the signature the statement affects zero rows. -/
theorem claim4_fill_status (a t : Nat) (o : OrderRow) (sig : String)
    (tbl : List OrderRow) :
    ((o.state = OrderState.FILLED ∨ o.state = OrderState.CANCELED) →
      (applyFillRow a t o).state = o.state)
    ∧ (¬(o.state = OrderState.FILLED ∨ o.state = OrderState.CANCELED) →
        o.amount_get ≤ max o.amount_fill a →
        (applyFillRow a t o).state = OrderState.FILLED)
    ∧ (¬(o.state = OrderState.FILLED ∨ o.state = OrderState.CANCELED) →
        max o.amount_fill a < o.amount_get →
        (applyFillRow a t o).state = OrderState.OPEN)
    ∧ (applyFillRow a t o).amount_fill = max o.amount_fill a
    ∧ ((∀ p ∈ tbl, p.signature ≠ sig) →
        update_order_fill_stmt a t sig tbl = tbl) := by
  refine ⟨?_, ?_, ?_, rfl, ?_⟩
  · intro hterm
    simp [applyFillRow, hterm]
  · intro hterm hge
    simp [applyFillRow, hterm, hge]
  · intro hterm hlt
    simp [applyFillRow, hterm, Nat.not_le.mpr hlt]
  · intro hnone
    exact map_eq_self_of_mem _ tbl fun p hp => if_neg (hnone p hp)

/-- Witness for `claim4_fill_status`: the scenario of the spec — an OPEN
order with get-amount 100, fills of 60 then 100 then a stale 40 — plus the
zero-rows case on a table without the signature. -/
theorem claim4_witness :
    (¬(openRow.state = OrderState.FILLED ∨ openRow.state = OrderState.CANCELED))
    ∧ (applyFillRow 60 1 openRow).state = OrderState.OPEN
    ∧ (applyFillRow 100 2 (applyFillRow 60 1 openRow)).state = OrderState.FILLED
    ∧ (applyFillRow 40 3 (applyFillRow 100 2 (applyFillRow 60 1 openRow))).state
        = (applyFillRow 100 2 (applyFillRow 60 1 openRow)).state
    ∧ (∀ p ∈ [openRow], p.signature ≠ "other")
    ∧ update_order_fill_stmt 40 3 "other" [openRow] = [openRow] :=
  ⟨by decide,
   (claim4_fill_status 60 1 openRow "other" [openRow]).2.2.1 (by decide) (by decide),
   (claim4_fill_status 100 2 (applyFillRow 60 1 openRow) "other" [openRow]).2.1
     (by decide) (by decide),
   (claim4_fill_status 40 3 (applyFillRow 100 2 (applyFillRow 60 1 openRow))
     "other" [openRow]).1 (by decide),
   by decide,
   (claim4_fill_status 40 3 openRow "other" [openRow]).2.2.2.2 (by decide)⟩

/-- Claim C5: after any finite sequence of `applyFill` row updates with
amounts `a1..an` (each with its own timestamp), the stored filled amount is
the maximum of the initial filled amount and all the `ai`; and a single
`applyFill` never decreases the stored filled amount. -/
theorem claim5_fill_sequence (calls : List (Nat × Nat)) (o : OrderRow)
    (a t : Nat) :
    (applyFillSeq calls o).amount_fill
      = (calls.map Prod.fst).foldl max o.amount_fill
    ∧ o.amount_fill ≤ (applyFillRow a t o).amount_fill := by
  constructor
  · induction calls generalizing o with
    | nil => rfl
    | cons c rest ih =>
      have h1 : applyFillSeq (c :: rest) o
          = applyFillSeq rest (applyFillRow c.1 c.2 o) := rfl
      rw [h1, ih]
      simp [applyFillRow]
  · exact le_max_left _ _

/-- Claim C8: `record_cancel` classifies the synthesized order as OFFCHAIN
exactly when the event args carry a non-None `r` signature component, and as
on-chain (the `ONCHANIN` member) otherwise; the synthesized row's `source`
column is this classification. -/
theorem claim8_source_classification (e : CancelEvent) (sig : String)
    (v0 : Int) (r0 s0 : String) (ts : Nat) :
    (cancel_source e = OrderSource.OFFCHAIN ↔ e.r ≠ none)
    ∧ (cancel_source e = OrderSource.ONCHANIN ↔ e.r = none)
    ∧ (canceledOrderRow e sig v0 r0 s0 ts).source = cancel_source e := by
  refine ⟨?_, ?_, rfl⟩
  · cases h : e.r <;> simp [cancel_source, h]
  · cases h : e.r <;> simp [cancel_source, h]

/-- Claim C9: a cancel event without a usable `r` signature component (the
events `record_cancel` classifies as on-chain) makes `record_cancel` raise
while building the upsert arguments — at `int(order["v"])` or at
`Web3.toBytes(text=order["r"])` — before the store is touched, so no order
record is ever persisted for it. -/
theorem claim9_onchain_cancel_raises (env : ChainEnv) (e : CancelEvent)
    (tbl : List OrderRow) (h : e.r = none) :
    cancel_source e = OrderSource.ONCHANIN
    ∧ record_cancel env e tbl = Except.error "TypeError"
    ∧ ∀ (tbl2 : List OrderRow) (b : Bool),
        record_cancel env e tbl ≠ Except.ok (tbl2, b) := by
  have hmain : record_cancel env e tbl = Except.error "TypeError" := by
    cases hv : e.v <;> simp [record_cancel, int_of, toBytes_text, h, hv]
  refine ⟨by simp [cancel_source, h], hmain, ?_⟩
  intro tbl2 b hc
  rw [hmain] at hc
  exact Except.noConfusion hc

/-- Witness for `claim9_onchain_cancel_raises` at the concrete on-chain
cancel event `e2`. -/
theorem claim9_witness :
    e2.r = none ∧ record_cancel env0 e2 [openRow] = Except.error "TypeError" :=
  ⟨rfl, (claim9_onchain_cancel_raises env0 e2 [openRow] rfl).2.1⟩

/-- Claim C10: on a matched row, `UPDATE_ORDER_FILL_STMT` overwrites the
`updated` column with the new timestamp unconditionally — in particular also
when the status is FILLED or CANCELED and status and fill amount stay as they
were — and leaves every column other than `amount_fill`, `state` and
`updated` unchanged. -/
theorem claim10_update_frame (a t : Nat) (o : OrderRow) (sig : String)
    (tbl : List OrderRow) :
    (applyFillRow a t o).updated = t
    ∧ (applyFillRow a t o).source = o.source
    ∧ (applyFillRow a t o).signature = o.signature
    ∧ (applyFillRow a t o).token_give = o.token_give
    ∧ (applyFillRow a t o).amount_give = o.amount_give
    ∧ (applyFillRow a t o).token_get = o.token_get
    ∧ (applyFillRow a t o).amount_get = o.amount_get
    ∧ (applyFillRow a t o).expires = o.expires
    ∧ (applyFillRow a t o).nonce = o.nonce
    ∧ (applyFillRow a t o).user = o.user
    ∧ (applyFillRow a t o).v = o.v
    ∧ (applyFillRow a t o).r = o.r
    ∧ (applyFillRow a t o).s = o.s
    ∧ (applyFillRow a t o).date = o.date
    ∧ ((o.state = OrderState.FILLED ∨ o.state = OrderState.CANCELED) →
        (applyFillRow a t o).state = o.state
        ∧ (applyFillRow a t o).amount_fill = max o.amount_fill a
        ∧ (applyFillRow a t o).updated = t)
    ∧ (o ∈ tbl → o.signature = sig →
        applyFillRow a t o ∈ update_order_fill_stmt a t sig tbl) := by
  refine ⟨rfl, rfl, rfl, rfl, rfl, rfl, rfl, rfl, rfl, rfl, rfl, rfl, rfl, rfl,
    ?_, ?_⟩
  · intro hterm
    exact ⟨by simp [applyFillRow, hterm], rfl, rfl⟩
  · intro ho hsig
    exact List.mem_map.mpr ⟨o, ho, by simp [hsig]⟩

/-- Witness for `claim10_update_frame` at the concrete FILLED order
`filledRow` inside a one-row table. -/
theorem claim10_witness :
    (filledRow.state = OrderState.FILLED ∨ filledRow.state = OrderState.CANCELED)
    ∧ (applyFillRow 40 8 filledRow).state = filledRow.state
    ∧ (applyFillRow 40 8 filledRow).updated = 8
    ∧ filledRow ∈ [filledRow]
    ∧ filledRow.signature = "sigF"
    ∧ applyFillRow 40 8 filledRow ∈ update_order_fill_stmt 40 8 "sigF" [filledRow] :=
  ⟨Or.inl rfl,
   ((claim10_update_frame 40 8 filledRow "sigF" [filledRow]).2.2.2.2.2.2.2.2.2.2.2.2.2.2.1
     (Or.inl rfl)).1,
   (claim10_update_frame 40 8 filledRow "sigF" [filledRow]).1,
   List.mem_singleton.mpr rfl,
   rfl,
   (claim10_update_frame 40 8 filledRow "sigF" [filledRow]).2.2.2.2.2.2.2.2.2.2.2.2.2.2.2
     (List.mem_singleton.mpr rfl) rfl⟩

/-- Claim C6: the affected-order lookup of a newly inserted trade selects the
trade's get-token when the give-token is the zero address and the give-token
otherwise; `fetch_affected_orders` returns exactly the persisted orders whose
user equals the maker, whose give-token or get-token equals the selected
token, and whose expiry is at least the trade's block number; and an empty
affected set leads `process_trade` to perform no fill lookup and no order
write. -/
theorem claim6_affected_orders (e : TradeEvent) (order_maker coin_addr : String)
    (expiring_at : Nat) (tbl : List OrderRow) (o : OrderRow) (env : ChainEnv)
    (db : DB) :
    (e.tokenGive = ZERO_ADDR → select_coin_addr e = e.tokenGet)
    ∧ (e.tokenGive ≠ ZERO_ADDR → select_coin_addr e = e.tokenGive)
    ∧ (o ∈ fetch_affected_orders order_maker coin_addr expiring_at tbl ↔
        o ∈ tbl ∧ o.user = order_maker ∧
        (o.token_give = coin_addr ∨ o.token_get = coin_addr) ∧
        expiring_at ≤ o.expires)
    ∧ (fetch_affected_orders e.get (select_coin_addr e) e.blockNumber db.orders
          = [] →
        (process_trade env e db).1.orders = db.orders
        ∧ (process_trade env e db).2.2 = []) := by
  refine ⟨?_, ?_, ?_, ?_⟩
  · intro h
    simp [select_coin_addr, h]
  · intro h
    simp [select_coin_addr, h]
  · simp only [fetch_affected_orders, List.mem_filter, Bool.and_eq_true,
      Bool.or_eq_true, beq_iff_eq, decide_eq_true_eq, and_assoc]
  · intro hempty
    by_cases hflag : (record_trade env e db.trades).2
    · have hpt : process_trade env e db
          = ({ db with trades := (record_trade env e db.trades).1 }, true, []) := by
        simp [process_trade, hflag, hempty]
      rw [hpt]
      exact ⟨rfl, rfl⟩
    · rw [process_trade_duplicate env e db (Bool.not_eq_true _ ▸ hflag)]
      exact ⟨rfl, rfl⟩

/-- Witness for `claim6_affected_orders`: the zero-address trade `eZ`
selects the get-token, the ERC20 trade `eT` selects the give-token, and on
the empty store the empty affected set produces no order write and no
lookup. -/
theorem claim6_witness :
    eZ.tokenGive = ZERO_ADDR
    ∧ select_coin_addr eZ = eZ.tokenGet
    ∧ eT.tokenGive ≠ ZERO_ADDR
    ∧ select_coin_addr eT = eT.tokenGive
    ∧ fetch_affected_orders eT.get (select_coin_addr eT) eT.blockNumber
        db0.orders = []
    ∧ (process_trade env0 eT db0).1.orders = db0.orders
    ∧ (process_trade env0 eT db0).2.2 = [] :=
  ⟨rfl,
   (claim6_affected_orders eZ "" "" 0 [] openRow env0 db0).1 rfl,
   by decide,
   (claim6_affected_orders eT "" "" 0 [] openRow env0 db0).2.1 (by decide),
   rfl,
   ((claim6_affected_orders eT "" "" 0 [] openRow env0 db0).2.2.2 rfl).1,
   ((claim6_affected_orders eT "" "" 0 [] openRow env0 db0).2.2.2 rfl).2⟩

/-- Claim C2: delivering the same trade event twice inserts exactly one fact
row — the second `process_trade` reports `inserted = false`, leaves the
trades and orders tables unchanged and performs no external fill lookup; the
same holds for transfer facts recorded by `record_transfer`. -/
theorem claim2_idempotent_delivery (env : ChainEnv) (e : TradeEvent)
    (direction : String) (te : TransferEvent) (db : DB)
    (h1 : ∀ row ∈ db.trades, ¬(row.transaction_hash = e.transactionHash ∧
      row.log_index = e.logIndex))
    (h2 : ∀ row ∈ db.transfers, ¬(row.transaction_hash = te.transactionHash ∧
      row.log_index = te.logIndex)) :
    (process_trade env e db).2.1 = true
    ∧ (process_trade env e ((process_trade env e db).1)).2.1 = false
    ∧ (process_trade env e ((process_trade env e db).1)).1.trades
        = (process_trade env e db).1.trades
    ∧ (process_trade env e ((process_trade env e db).1)).1.orders
        = (process_trade env e db).1.orders
    ∧ (process_trade env e ((process_trade env e db).1)).2.2 = []
    ∧ (process_trade env e ((process_trade env e db).1)).1.trades.countP
        (fun row => row.transaction_hash == e.transactionHash &&
          row.log_index == e.logIndex) = 1
    ∧ (record_transfer env direction te
        ((record_transfer env direction te db.transfers).1)).2 = false
    ∧ (record_transfer env direction te
        ((record_transfer env direction te db.transfers).1)).1
        = (record_transfer env direction te db.transfers).1
    ∧ (record_transfer env direction te
        ((record_transfer env direction te db.transfers).1)).1.countP
        (fun row => row.transaction_hash == te.transactionHash &&
          row.log_index == te.logIndex) = 1 := by
  have hfirst : record_trade env e db.trades
      = (db.trades ++ [tradeRowOfEvent env e], true) := by
    rw [record_trade, insert_trade_not_present _ _ h1]
    rfl
  have htr1 : (process_trade env e db).1.trades
      = db.trades ++ [tradeRowOfEvent env e] := by
    rw [process_trade_trades, hfirst]
  have hsecond : record_trade env e (process_trade env e db).1.trades
      = ((process_trade env e db).1.trades, false) := by
    rw [record_trade, htr1,
      insert_trade_present (tradeRowOfEvent env e) _ (tradeRowOfEvent env e)
        (by simp) ⟨rfl, rfl⟩]
    rfl
  have hdup := process_trade_duplicate env e (process_trade env e db).1
    (by rw [hsecond])
  have hcount : (db.trades ++ [tradeRowOfEvent env e]).countP
      (fun row => row.transaction_hash == e.transactionHash &&
        row.log_index == e.logIndex) = 1 := by
    rw [List.countP_append]
    have hz : db.trades.countP (fun row => row.transaction_hash == e.transactionHash &&
        row.log_index == e.logIndex) = 0 := by
      rw [List.countP_eq_zero]
      intro row hrow
      simp only [Bool.and_eq_true, beq_iff_eq]
      exact h1 row hrow
    rw [hz]
    simp [List.countP_cons, tradeRowOfEvent]
  have hftr : record_transfer env direction te db.transfers
      = (db.transfers ++ [transferRowOfEvent env direction te], true) := by
    rw [record_transfer, insert_transfer_not_present _ _ h2]
    rfl
  have hstr : record_transfer env direction te
      (record_transfer env direction te db.transfers).1
      = ((record_transfer env direction te db.transfers).1, false) := by
    rw [record_transfer]
    rw [show (record_transfer env direction te db.transfers).1
        = db.transfers ++ [transferRowOfEvent env direction te] by rw [hftr]]
    rw [insert_transfer_present (transferRowOfEvent env direction te) _
      (transferRowOfEvent env direction te) (by simp) ⟨rfl, rfl⟩]
    rfl
  have hcountt : (db.transfers ++ [transferRowOfEvent env direction te]).countP
      (fun row => row.transaction_hash == te.transactionHash &&
        row.log_index == te.logIndex) = 1 := by
    rw [List.countP_append]
    have hz : db.transfers.countP (fun row => row.transaction_hash == te.transactionHash &&
        row.log_index == te.logIndex) = 0 := by
      rw [List.countP_eq_zero]
      intro row hrow
      simp only [Bool.and_eq_true, beq_iff_eq]
      exact h2 row hrow
    rw [hz]
    simp [List.countP_cons, transferRowOfEvent]
  refine ⟨?_, ?_, ?_, ?_, ?_, ?_, ?_, ?_, ?_⟩
  · rw [process_trade_flag, hfirst]
  · rw [hdup]
  · rw [hdup]
    show (record_trade env e (process_trade env e db).1.trades).1
      = (process_trade env e db).1.trades
    rw [hsecond]
  · rw [hdup]
  · rw [hdup]
  · rw [hdup]
    show (record_trade env e (process_trade env e db).1.trades).1.countP _ = 1
    rw [hsecond]
    rw [htr1]
    exact hcount
  · rw [hstr]
  · rw [hstr]
  · rw [hstr]
    rw [show (record_transfer env direction te db.transfers).1
        = db.transfers ++ [transferRowOfEvent env direction te] by rw [hftr]]
    exact hcountt

/-- Witness for `claim2_idempotent_delivery` on the empty store with the
concrete trade `eT` and deposit `te0`. -/
theorem claim2_witness :
    (∀ row ∈ db0.trades, ¬(row.transaction_hash = eT.transactionHash ∧
      row.log_index = eT.logIndex))
    ∧ (process_trade env0 eT db0).2.1 = true
    ∧ (process_trade env0 eT ((process_trade env0 eT db0).1)).2.1 = false
    ∧ (process_trade env0 eT ((process_trade env0 eT db0).1)).1.orders
        = (process_trade env0 eT db0).1.orders
    ∧ (process_trade env0 eT ((process_trade env0 eT db0).1)).1.trades.countP
        (fun row => row.transaction_hash == eT.transactionHash &&
          row.log_index == eT.logIndex) = 1
    ∧ (record_transfer env0 "DEPOSIT" te0
        ((record_transfer env0 "DEPOSIT" te0 db0.transfers).1)).2 = false :=
  ⟨by simp [db0],
   (claim2_idempotent_delivery env0 eT "DEPOSIT" te0 db0 (by simp [db0])
     (by simp [db0])).1,
   (claim2_idempotent_delivery env0 eT "DEPOSIT" te0 db0 (by simp [db0])
     (by simp [db0])).2.1,
   (claim2_idempotent_delivery env0 eT "DEPOSIT" te0 db0 (by simp [db0])
     (by simp [db0])).2.2.2.1,
   (claim2_idempotent_delivery env0 eT "DEPOSIT" te0 db0 (by simp [db0])
     (by simp [db0])).2.2.2.2.2.1,
   (claim2_idempotent_delivery env0 eT "DEPOSIT" te0 db0 (by simp [db0])
     (by simp [db0])).2.2.2.2.2.2.1⟩

/-- Claim C3: `record_cancel` on a signature with no existing record inserts
a new order synthesized from the cancellation's terms with status CANCELED
and filled amount equal to the order's get-amount, reporting true; on a
signature whose record is OPEN it rewrites that record to CANCELED with
filled amount the get-amount, reporting true; on a signature whose record is
FILLED or CANCELED it writes nothing and reports false rather than an
error. -/
theorem claim3_cancel_upsert (env : ChainEnv) (e : CancelEvent) (v0 : Int)
    (r0 s0 : String) (tbl : List OrderRow)
    (hv : e.v = some v0) (hr : e.r = some r0) (hs : e.s = some s0) :
    ((∀ o ∈ tbl, o.signature ≠ make_order_hash e) →
      record_cancel env e tbl = Except.ok
        (tbl ++ [canceledOrderRow e (make_order_hash e) v0 r0 s0
          (env.blockTs e.blockNumber)], true)
      ∧ (canceledOrderRow e (make_order_hash e) v0 r0 s0
          (env.blockTs e.blockNumber)).state = OrderState.CANCELED
      ∧ (canceledOrderRow e (make_order_hash e) v0 r0 s0
          (env.blockTs e.blockNumber)).amount_fill = e.amountGet)
    ∧ (∀ o ∈ tbl, o.signature = make_order_hash e →
        o.state = OrderState.OPEN →
        record_cancel env e tbl = Except.ok
          (tbl.map (cancelUpdateRow (canceledOrderRow e (make_order_hash e)
            v0 r0 s0 (env.blockTs e.blockNumber))), true)
        ∧ { o with
              state := OrderState.CANCELED
              amount_fill := e.amountGet
              updated := env.blockTs e.blockNumber }
            ∈ tbl.map (cancelUpdateRow (canceledOrderRow e (make_order_hash e)
              v0 r0 s0 (env.blockTs e.blockNumber))))
    ∧ (tbl.Pairwise (fun a b => a.signature ≠ b.signature) →
        ∀ o ∈ tbl, o.signature = make_order_hash e →
        (o.state = OrderState.FILLED ∨ o.state = OrderState.CANCELED) →
        record_cancel env e tbl = Except.ok (tbl, false)) := by
  have hrc : ∀ res : List OrderRow × Nat,
      upsert_canceled_order_stmt (canceledOrderRow e (make_order_hash e)
        v0 r0 s0 (env.blockTs e.blockNumber)) tbl = res →
      record_cancel env e tbl = Except.ok (res.1, parse_insert_status res.2) := by
    intro res hres
    simp [record_cancel, hv, hr, hs, int_of, toBytes_text, hres]
  have hsig : (canceledOrderRow e (make_order_hash e) v0 r0 s0
      (env.blockTs e.blockNumber)).signature = make_order_hash e := rfl
  refine ⟨?_, ?_, ?_⟩
  · intro hnone
    have hany : (tbl.any fun o => o.signature == (canceledOrderRow e
        (make_order_hash e) v0 r0 s0 (env.blockTs e.blockNumber)).signature)
        = false := by
      rw [List.any_eq_false]
      intro o ho
      rw [hsig]
      simp only [beq_iff_eq]
      exact hnone o ho
    have hup : upsert_canceled_order_stmt (canceledOrderRow e
        (make_order_hash e) v0 r0 s0 (env.blockTs e.blockNumber)) tbl
        = (tbl ++ [canceledOrderRow e (make_order_hash e) v0 r0 s0
            (env.blockTs e.blockNumber)], 1) := by
      rw [upsert_canceled_order_stmt, if_neg (by simp [hany])]
    refine ⟨?_, rfl, rfl⟩
    rw [hrc _ hup]
    rfl
  · intro o ho hosig hostate
    have hany : (tbl.any fun p => p.signature == (canceledOrderRow e
        (make_order_hash e) v0 r0 s0 (env.blockTs e.blockNumber)).signature)
        = true :=
      List.any_eq_true.mpr ⟨o, ho, by rw [hsig]; simp [hosig]⟩
    have hpos : 0 < tbl.countP (fun p => p.signature == (canceledOrderRow e
        (make_order_hash e) v0 r0 s0 (env.blockTs e.blockNumber)).signature &&
        p.state == OrderState.OPEN) :=
      List.countP_pos_iff.mpr ⟨o, ho, by rw [hsig]; simp [hosig, hostate]⟩
    have hup : upsert_canceled_order_stmt (canceledOrderRow e
        (make_order_hash e) v0 r0 s0 (env.blockTs e.blockNumber)) tbl
        = (tbl.map (cancelUpdateRow (canceledOrderRow e (make_order_hash e)
            v0 r0 s0 (env.blockTs e.blockNumber))),
           tbl.countP (fun p => p.signature == (canceledOrderRow e
             (make_order_hash e) v0 r0 s0
             (env.blockTs e.blockNumber)).signature &&
             p.state == OrderState.OPEN)) := by
      rw [upsert_canceled_order_stmt, if_pos hany]
    have hparse : parse_insert_status (tbl.countP (fun p => p.signature ==
        (canceledOrderRow e (make_order_hash e) v0 r0 s0
          (env.blockTs e.blockNumber)).signature &&
        p.state == OrderState.OPEN)) = true := by
      rw [parse_insert_status, decide_eq_true_eq]
      exact hpos
    constructor
    · rw [hrc _ hup]
      simp only [hparse]
    · refine List.mem_map.mpr ⟨o, ho, ?_⟩
      rw [cancelUpdateRow, if_pos (by rw [hsig]; simp [hosig, hostate])]
      rfl
  · intro hpair o ho hosig hterm
    have hfix : ∀ p ∈ tbl, cancelUpdateRow (canceledOrderRow e
        (make_order_hash e) v0 r0 s0 (env.blockTs e.blockNumber)) p = p := by
      intro p hp
      by_cases hps : p.signature = make_order_hash e
      · have hpo : p = o :=
          sig_unique_eq tbl hpair p hp o ho (hps.trans hosig.symm)
        have hpstate : (p.state == OrderState.OPEN) = false := by
          rw [hpo]
          rcases hterm with ht | ht <;> simp [ht]
        rw [cancelUpdateRow, if_neg (by simp [hpstate])]
      · rw [cancelUpdateRow, if_neg (by rw [hsig]; simp [hps])]
    have hany : (tbl.any fun p => p.signature == (canceledOrderRow e
        (make_order_hash e) v0 r0 s0 (env.blockTs e.blockNumber)).signature)
        = true :=
      List.any_eq_true.mpr ⟨o, ho, by rw [hsig]; simp [hosig]⟩
    have hzero : tbl.countP (fun p => p.signature == (canceledOrderRow e
        (make_order_hash e) v0 r0 s0 (env.blockTs e.blockNumber)).signature &&
        p.state == OrderState.OPEN) = 0 := by
      rw [List.countP_eq_zero]
      intro p hp
      by_cases hps : p.signature = make_order_hash e
      · have hpo : p = o :=
          sig_unique_eq tbl hpair p hp o ho (hps.trans hosig.symm)
        rw [hpo]
        rcases hterm with ht | ht <;> simp [ht]
      · rw [hsig]
        simp [hps]
    have hup : upsert_canceled_order_stmt (canceledOrderRow e
        (make_order_hash e) v0 r0 s0 (env.blockTs e.blockNumber)) tbl
        = (tbl, 0) := by
      rw [upsert_canceled_order_stmt, if_pos hany,
        map_eq_self_of_mem _ tbl hfix, hzero]
    rw [hrc _ hup]
    rfl

/-- Witness for `claim3_cancel_upsert`: the off-chain cancel `e1` against an
empty table (insert), against its OPEN order `openRowE1` (guarded update) and
against its FILLED order `filledRowE1` (no-op reporting false). -/
theorem claim3_witness :
    e1.v = some 27 ∧ e1.r = some "r1" ∧ e1.s = some "s1"
    ∧ record_cancel env0 e1 [] = Except.ok
        ([] ++ [canceledOrderRow e1 (make_order_hash e1) 27 "r1" "s1"
          (env0.blockTs e1.blockNumber)], true)
    ∧ record_cancel env0 e1 [openRowE1] = Except.ok
        ([openRowE1].map (cancelUpdateRow (canceledOrderRow e1
          (make_order_hash e1) 27 "r1" "s1" (env0.blockTs e1.blockNumber))),
         true)
    ∧ record_cancel env0 e1 [filledRowE1] = Except.ok ([filledRowE1], false) :=
  ⟨rfl, rfl, rfl,
   ((claim3_cancel_upsert env0 e1 27 "r1" "s1" [] rfl rfl rfl).1
     (by simp)).1,
   ((claim3_cancel_upsert env0 e1 27 "r1" "s1" [openRowE1] rfl rfl rfl).2.1
     openRowE1 (List.mem_singleton.mpr rfl) rfl rfl).1,
   (claim3_cancel_upsert env0 e1 27 "r1" "s1" [filledRowE1] rfl rfl rfl).2.2
     (List.pairwise_singleton _ _) filledRowE1 (List.mem_singleton.mpr rfl)
     rfl (Or.inl rfl)⟩

/-- Claim C7: when every lookup succeeds, `update_order_fills` performs
exactly one external fill lookup per affected order, keyed by the order's
maker and signature, and the orders table evolves by one
`UPDATE_ORDER_FILL_STMT` per order carrying exactly the looked-up amount and
the latest-block timestamp; when the lookup for an order fails, the rows of
that order's signature are left exactly as they were. -/
theorem claim7_fill_refresh (env : ChainEnv) (affected tbl : List OrderRow) :
    ((∀ o ∈ affected, (env.orderFills o.user o.signature).isSome = true) →
      (update_order_fills env affected tbl).2.1
          = affected.map (fun o => (o.user, o.signature))
      ∧ (update_order_fills env affected tbl).2.2 = true
      ∧ (update_order_fills env affected tbl).1
          = affected.foldl (fun acc o =>
              update_order_fill_stmt ((env.orderFills o.user o.signature).getD 0)
                env.latestTs o.signature acc) tbl)
    ∧ (affected.Pairwise (fun a b => a.signature ≠ b.signature) →
        ∀ o ∈ affected, env.orderFills o.user o.signature = none →
          (update_order_fills env affected tbl).1.filter
              (fun p => p.signature == o.signature)
            = tbl.filter (fun p => p.signature == o.signature)) := by
  constructor
  · induction affected generalizing tbl with
    | nil =>
      intro _
      exact ⟨rfl, rfl, rfl⟩
    | cons o rest ih =>
      intro hsucc
      obtain ⟨a, ha⟩ := Option.isSome_iff_exists.mp
        (hsucc o (List.mem_cons_self o rest))
      have hrest : ∀ p ∈ rest, (env.orderFills p.user p.signature).isSome = true :=
        fun p hp => hsucc p (List.mem_cons_of_mem o hp)
      have ihr := ih (update_order_fill_stmt a env.latestTs o.signature tbl) hrest
      refine ⟨?_, ?_, ?_⟩
      · simp only [update_order_fills, ha, List.map_cons]
        rw [ihr.1]
      · simp only [update_order_fills, ha]
        exact ihr.2.1
      · simp only [update_order_fills, ha, List.foldl_cons]
        rw [ihr.2.2]
        simp [ha]
  · induction affected generalizing tbl with
    | nil =>
      intro _ o ho _
      simp at ho
    | cons q rest ih =>
      intro hpair o ho hfail
      rcases List.pairwise_cons.mp hpair with ⟨hq, hrestpair⟩
      rcases List.mem_cons.mp ho with ho1 | ho2
      · cases hql : env.orderFills q.user q.signature with
        | none => simp [update_order_fills, hql]
        | some a =>
          rw [ho1] at hfail
          rw [hfail] at hql
          exact Option.noConfusion hql
      · cases hql : env.orderFills q.user q.signature with
        | none => simp [update_order_fills, hql]
        | some a =>
          have hne : q.signature ≠ o.signature := hq o ho2
          simp only [update_order_fills, hql]
          rw [ih (update_order_fill_stmt a env.latestTs q.signature tbl)
            hrestpair o ho2 hfail]
          exact filter_update_of_ne a env.latestTs q.signature o.signature tbl hne

/-- Witness for `claim7_fill_refresh`: under `env1`, the lookup for
`openRow` (signature `sigA`) succeeds and is performed exactly once, while
the lookup for `filledRow` (signature `sigF`) fails and leaves that order's
row untouched. -/
theorem claim7_witness :
    (∀ o ∈ [openRow], (env1.orderFills o.user o.signature).isSome = true)
    ∧ (update_order_fills env1 [openRow] [openRow]).2.1
        = [openRow].map (fun o => (o.user, o.signature))
    ∧ ([filledRow].Pairwise fun a b => a.signature ≠ b.signature)
    ∧ env1.orderFills filledRow.user filledRow.signature = none
    ∧ (update_order_fills env1 [filledRow] [filledRow]).1.filter
        (fun p => p.signature == filledRow.signature)
        = [filledRow].filter (fun p => p.signature == filledRow.signature) :=
  ⟨by decide,
   ((claim7_fill_refresh env1 [openRow] [openRow]).1 (by decide)).1,
   List.pairwise_singleton _ _,
   rfl,
   (claim7_fill_refresh env1 [filledRow] [filledRow]).2
     (List.pairwise_singleton _ _) filledRow (List.mem_singleton.mpr rfl) rfl⟩

end ContractEventRecorders
